import Mathlib

/-!
Verification development for the container-terminal haulage simulator
(sources: src/floor.py, src/operators.py, src/job.py, src/operate/engine.py,
src/plan/job_planner.py, src/simulation.py, src/constant.py).

The Python classes are shallowly embedded: pure methods become Lean
functions, mutating methods become functions from state to state, and
methods that can raise become `Option`-valued functions where `none`
models the raised exception.
-/

namespace PSA

/-! ## Constants (src/constant.py, `JobParameter` and `UIConstant`) -/

def YARD_WORK_TIME_REQUIRED : Nat := 300

def QC_WORK_TIME_REQUIRED : Nat := 120

def SYSTEM_TIME_PASSED : Nat := 10

def PLANNING_INTERVAL : Int := 60

def DEADLOCK_THRESHOLD : Nat := 3600

/-! ## Coordinates and the sector grid (src/floor.py) -/

/-- Coordinate: the 2-D grid position dataclass of `floor.py`. -/
structure Coordinate where
  x : Int
  y : Int
deriving DecidableEq, Repr

/-- The four movement direction strings used by `Sector`. -/
inductive Dir where
  | left
  | up
  | right
  | down
deriving DecidableEq, Repr

/-- The x-columns that carry QC IN/OUT sectors on row y = 3:
Python `[i + j for i in range(3, 42, 5) for j in range(2)]`. -/
def QC_valid_x : List Int :=
  ((List.range' 3 8 5).map (Int.ofNat)).flatMap (fun i => [i, i + 1])

/-- The x-columns that carry yard IN/OUT sectors on row y = 13:
Python `[i + j for i in range(2, 42, 5) for j in range(4)]`. -/
def yard_valid_x : List Int :=
  ((List.range' 2 8 5).map (Int.ofNat)).flatMap (fun i => [i, i + 1, i + 2, i + 3])

/-- One candidate neighbour per direction, as in
`Sector.__get_onscreen_movable_coordinates`. -/
def dirTarget (c : Coordinate) : Dir → Coordinate
  | .left => ⟨c.x - 1, c.y⟩
  | .right => ⟨c.x + 1, c.y⟩
  | .up => ⟨c.x, c.y - 1⟩
  | .down => ⟨c.x, c.y + 1⟩

/-- `Sector.__get_onscreen_movable_coordinates`: filters the direction
targets to those inside the active map, with the special row filters for
the QC row (y = 3) and the yard row (y = 13). -/
def onscreenMovableCoordinates (c : Coordinate) (dirs : List Dir) : List Coordinate :=
  dirs.filterMap (fun d =>
    let n := dirTarget c d
    if 1 ≤ n.x ∧ n.x ≤ 42 ∧ 3 ≤ n.y ∧ n.y ≤ 13 then
      if n.y = 3 ∧ ¬ (n.x ∈ QC_valid_x) then none
      else if n.y = 13 ∧ ¬ (n.x ∈ yard_valid_x) then none
      else some n
    else none)

/-- The sector subclasses of `floor.py` (the `Unused` variant is never
instantiated by `SectorMap.__initialize_data`, which puts `None` there). -/
inductive SectorType where
  | QC_IN
  | QC_OUT
  | QC_TRAVEL
  | BUFFER
  | HIGHWAY_RIGHT
  | HIGHWAY_LEFT
  | YARD_IN
  | YARD_OUT
deriving DecidableEq, Repr

/-- The `moveable_directions` constructor argument of each sector subclass. -/
def sectorDirs : SectorType → List Dir
  | .QC_IN => [.right]
  | .QC_OUT => [.down]
  | .QC_TRAVEL => [.up, .down, .right]
  | .BUFFER => [.up, .down]
  | .HIGHWAY_RIGHT => [.up, .down, .right]
  | .HIGHWAY_LEFT => [.up, .down, .left]
  | .YARD_IN => [.right]
  | .YARD_OUT => [.up]

/-- The `capacity` constructor argument of each sector subclass. -/
def sectorCapacity : SectorType → Nat
  | .QC_IN => 2
  | .QC_OUT => 2
  | .QC_TRAVEL => 1
  | .BUFFER => 2
  | .HIGHWAY_RIGHT => 1
  | .HIGHWAY_LEFT => 1
  | .YARD_IN => 3
  | .YARD_OUT => 1

/-- The fixed grid layout built by `SectorMap.__initialize_data`:
row 3 holds the QC IN/OUT pattern, rows 4-5 the QC travel lanes, row 6
the buffer lane, rows 7-12 alternating highway-left/right lanes, and
row 13 the yard IN/OUT pattern.  `none` is a cell without a sector. -/
def sectorTypeAt (c : Coordinate) : Option SectorType :=
  if c.y = 3 then
    if 3 ≤ c.x ∧ c.x ≤ 42 ∧ (c.x - 3) % 5 = 0 then some .QC_IN
    else if 3 ≤ c.x ∧ c.x ≤ 42 ∧ (c.x - 3) % 5 = 1 then some .QC_OUT
    else none
  else if c.y = 4 ∨ c.y = 5 then
    if 1 ≤ c.x ∧ c.x ≤ 42 then some .QC_TRAVEL else none
  else if c.y = 6 then
    if 1 ≤ c.x ∧ c.x ≤ 42 then some .BUFFER else none
  else if c.y = 7 ∨ c.y = 9 ∨ c.y = 11 then
    if 1 ≤ c.x ∧ c.x ≤ 42 then some .HIGHWAY_LEFT else none
  else if c.y = 8 ∨ c.y = 10 ∨ c.y = 12 then
    if 1 ≤ c.x ∧ c.x ≤ 42 then some .HIGHWAY_RIGHT else none
  else if c.y = 13 then
    if 2 ≤ c.x ∧ c.x ≤ 41 ∧ ((c.x - 2) % 5 = 0 ∨ (c.x - 2) % 5 = 2) then some .YARD_IN
    else if 2 ≤ c.x ∧ c.x ≤ 41 ∧ ((c.x - 2) % 5 = 1 ∨ (c.x - 2) % 5 = 3) then some .YARD_OUT
    else none
  else none

/-- `Sector.get_movable_to_coordinates` of the sector at `c` (the table
is precomputed at construction; here recomputed from the fixed type). -/
def movableTo (c : Coordinate) : List Coordinate :=
  match sectorTypeAt c with
  | some t => onscreenMovableCoordinates c (sectorDirs t)
  | none => []

/-- `Sector.get_capacity` of the sector at `c` (0 where no sector exists;
such cells never hold occupants). -/
def capacityAt (c : Coordinate) : Nat :=
  match sectorTypeAt c with
  | some t => sectorCapacity t
  | none => 0

/-- Occupancy state of the `SectorMap`: the `__occupators` list of every
sector, indexed by coordinate.  Cells without a sector map to `[]`. -/
def Occ : Type := Coordinate → List String

/-- Pointwise update of the occupancy state. -/
def updOcc (occ : Occ) (c : Coordinate) (l : List String) : Occ :=
  fun c' => if c' = c then l else occ c'

/-- The empty occupancy map (every sector freshly constructed). -/
def emptyOcc : Occ := fun _ => []

/-- `SectorMap.add_occupator`: look the sector up (crash = `none` when the
cell has no sector), add the occupant if the sector `is_available`, raise
`OverflowError` (= `none`) otherwise; `Sector.add_occupator` itself raises
(= `none`) when the name is already present. -/
def addOccupator (occ : Occ) (c : Coordinate) (name : String) : Option Occ :=
  match sectorTypeAt c with
  | none => none
  | some t =>
    if (occ c).length < sectorCapacity t then
      if name ∈ occ c then none
      else some (updOcc occ c (occ c ++ [name]))
    else none

/-- `SectorMap.move_occupator`: validates that the mover occupies the
source, does not already occupy the destination, and the destination is in
the source's precomputed legal-destination set; then removes it from the
source and appends it to the destination.  Any failed check raises
(= `none`).  No capacity check is performed on the destination. -/
def moveOccupator (occ : Occ) (fromC toC : Coordinate) (name : String) : Option Occ :=
  match sectorTypeAt fromC, sectorTypeAt toC with
  | some _, some _ =>
    let from_coord_has_HT := name ∈ occ fromC
    let to_coord_not_have_HT := ¬ (name ∈ occ toC)
    let is_movable := toC ∈ movableTo fromC
    if from_coord_has_HT ∧ to_coord_not_have_HT ∧ is_movable then
      let occ1 := updOcc occ fromC ((occ fromC).erase name)
      some (updOcc occ1 toC (occ1 toC ++ [name]))
    else none
  | _, _ => none

/-- `SectorMap.is_sector_available` composed with the engine's guard: the
engine executes a pending move only if the destination sector currently
has spare capacity (`OperationEngine.operate`, drive-execution pass) and
otherwise leaves the state unchanged; `none` models the crash on a cell
with no sector. -/
def guardedMove (occ : Occ) (m : Coordinate × Coordinate × String) : Option Occ :=
  match sectorTypeAt m.2.1 with
  | none => none
  | some t =>
    if (occ m.2.1).length < sectorCapacity t then
      moveOccupator occ m.1 m.2.1 m.2.2
    else some occ

/-- The effect of one tick of `OperationEngine.operate` on the occupancy
map: the pending DRIVE moves are executed one after the other, each
guarded by the availability check. -/
def tickMoves (occ : Occ) : List (Coordinate × Coordinate × String) → Option Occ
  | [] => some occ
  | m :: ms =>
    match guardedMove occ m with
    | none => none
    | some occ' => tickMoves occ' ms

/-- The occupancy states the simulation can reach: the empty map, then the
initial `add_occupator` calls of `Simulation.create_operation_resources`,
then any sequence of whole ticks of guarded moves (the engine's
drive-execution pass is the only code that moves occupants). -/
inductive ReachableOcc : Occ → Prop where
  | empty : ReachableOcc emptyOcc
  | add {occ occ' : Occ} {c : Coordinate} {name : String} :
      ReachableOcc occ → addOccupator occ c name = some occ' → ReachableOcc occ'
  | tick {occ occ' : Occ} {ms : List (Coordinate × Coordinate × String)} :
      ReachableOcc occ → tickMoves occ ms = some occ' → ReachableOcc occ'

/-- The capacity invariant of claim C1: every sector holds at most
`capacity` occupants. -/
def OccInv (occ : Occ) : Prop :=
  ∀ c : Coordinate, (occ c).length ≤ capacityAt c

/-! ## Job sequences and the QC operator (src/operators.py) -/

/-- A QC job sequence identifier.  In the Python it is the string
`"<CRANE>_<4-digit-seq>"`; `QCOperator.join_queue` parses the number with
`int(job_seq.split("_")[1])` and rebuilds the expected successor with
`f"{QC_name}_{latest_seq_number+1:04d}"`.  With the canonical zero-padded
input format, string equality coincides with equality of this pair. -/
structure JobSeq where
  qc : String
  n : Nat
deriving DecidableEq, Repr

/-- `QCOperator` state: the lock holder and FIFO queue of
`QueuedResourceOperator`, the private work-progress counter, and the
`expected_minimum_seq_number` pointer.  The extra `accepted` field is a
ghost history variable recording every sequence ever appended to the
queue; it is not part of the Python state and is read by no operation. -/
structure QCOperatorState where
  name : String
  lockedBy : Option JobSeq
  queue : List JobSeq
  handlingTaskProgress : Option Nat
  expectedMinimumSeqNumber : Nat
  accepted : List JobSeq
deriving DecidableEq, Repr

/-- A freshly constructed `QCOperator`. -/
def initQCOperator (name : String) : QCOperatorState :=
  { name := name
    lockedBy := none
    queue := []
    handlingTaskProgress := none
    expectedMinimumSeqNumber := 0
    accepted := [] }

/-- `QCOperator.join_queue`: with an empty queue the entry is appended only
when its number is the successor of the most recently completed one;
otherwise it is appended only when it equals the successor of the last
entry in the queue.  In every other case the call silently does nothing
(the method has no raise path). -/
def joinQueue (st : QCOperatorState) (jobSeq : JobSeq) : QCOperatorState :=
  if st.queue = [] then
    if st.expectedMinimumSeqNumber + 1 = jobSeq.n then
      { st with queue := [jobSeq], accepted := st.accepted ++ [jobSeq] }
    else st
  else
    if jobSeq ∈ st.queue then st
    else
      match st.queue.getLast? with
      | none => st
      | some latest =>
        if jobSeq = ⟨latest.qc, latest.n + 1⟩ then
          { st with queue := st.queue ++ [jobSeq], accepted := st.accepted ++ [jobSeq] }
        else st

/-- `QueuedResourceOperator.lock`: raises (= `none`) when already locked or
when the caller is not at the head of the queue. -/
def lockQC (st : QCOperatorState) (jobSeq : JobSeq) : Option QCOperatorState :=
  match st.lockedBy with
  | some _ => none
  | none =>
    match st.queue with
    | [] => none
    | q0 :: _ => if q0 = jobSeq then some { st with lockedBy := some jobSeq } else none

/-- `QCOperator.release`: raises (= `none`) unless `jobSeq` is the current
holder; pops the queue head, clears the progress counter and records the
released number as `expected_minimum_seq_number`. -/
def releaseQC (st : QCOperatorState) (jobSeq : JobSeq) : Option QCOperatorState :=
  if st.lockedBy = some jobSeq then
    match st.queue with
    | [] => none
    | _ :: rest =>
      some { st with
              lockedBy := none
              queue := rest
              handlingTaskProgress := none
              expectedMinimumSeqNumber := jobSeq.n }
  else none

/-- The three queue-protocol operations a crane operator receives from the
engine. -/
inductive QCEvent where
  | join (jobSeq : JobSeq)
  | lock (jobSeq : JobSeq)
  | release (jobSeq : JobSeq)
deriving DecidableEq, Repr

/-- One protocol call; `none` models the call raising. -/
def qcStep (st : QCOperatorState) : QCEvent → Option QCOperatorState
  | .join jobSeq => some (joinQueue st jobSeq)
  | .lock jobSeq => lockQC st jobSeq
  | .release jobSeq => releaseQC st jobSeq

/-- A sequence of protocol calls, stopping at the first raise. -/
def qcRun (st : QCOperatorState) : List QCEvent → Option QCOperatorState
  | [] => some st
  | e :: es =>
    match qcStep st e with
    | none => none
    | some st' => qcRun st' es

/-! ## Yard operator work progress (src/operators.py, `YardOperator`) -/

/-- The work-progress part of `YardOperator` state (`None` before any
`receive_task`). -/
structure YardOperatorState where
  name : String
  handlingTaskProgress : Option Nat
deriving DecidableEq, Repr

/-- `YardOperator.receive_task`: progress starts at 0. -/
def yardReceiveTask (st : YardOperatorState) : YardOperatorState :=
  { st with handlingTaskProgress := some 0 }

/-- `YardOperator.has_completed_task`: compares progress with the required
duration; `none` models the `TypeError` raised when no task was received. -/
def yardHasCompletedTask (st : YardOperatorState) : Option Bool :=
  st.handlingTaskProgress.map (fun p => YARD_WORK_TIME_REQUIRED ≤ p)

/-- `YardOperator.execute_task`: does nothing without a task, otherwise
advances progress by one system time step until the required duration is
reached. -/
def yardExecuteTask (st : YardOperatorState) : YardOperatorState :=
  match st.handlingTaskProgress with
  | none => st
  | some p =>
    if YARD_WORK_TIME_REQUIRED ≤ p then st
    else { st with handlingTaskProgress := some (p + SYSTEM_TIME_PASSED) }

/-! ## Deadlock monitor (src/operators.py, `HT_Coordinate_View`) -/

/-- The deadlock-monitoring state: the previous snapshot of all HT
coordinates (`get_coordinate` yields `none` for an unknown name) and the
accumulated idle time. -/
structure HTCoordView where
  previousHTCoords : List (Option Coordinate)
  noHTMoveCounter : Nat
deriving DecidableEq, Repr

/-- `HT_Coordinate_View.is_deadlock`, with the freshly computed coordinate
snapshot passed as an argument: on an identical snapshot the idle counter
grows by the tick size and deadlock is signalled once it reaches the
threshold; any movement resets the counter and updates the snapshot. -/
def isDeadlock (st : HTCoordView) (current : List (Option Coordinate)) :
    Bool × HTCoordView :=
  if current = st.previousHTCoords then
    let counter := st.noHTMoveCounter + SYSTEM_TIME_PASSED
    (decide (DEADLOCK_THRESHOLD ≤ counter), { st with noHTMoveCounter := counter })
  else
    (false, { previousHTCoords := current, noHTMoveCounter := 0 })

/-- The monitor state after `n` consecutive `is_deadlock` checks that all
observe the same snapshot `c`. -/
def deadlockStateAfter (st : HTCoordView) (c : List (Option Coordinate)) : Nat → HTCoordView
  | 0 => st
  | n + 1 => (isDeadlock (deadlockStateAfter st c n) c).2

/-! ## Planning cadence (src/simulation.py, `Simulation.is_planning_due`) -/

/-- `Simulation.is_planning_due`, on the `plan_countdown` state: when the
countdown is at or below zero it is reset to the planning interval and
planning is due; otherwise it is decremented by the tick size and planning
is not due. -/
def isPlanningDue (countdown : Int) : Bool × Int :=
  if countdown ≤ 0 then (true, PLANNING_INTERVAL)
  else (false, countdown - (SYSTEM_TIME_PASSED : Int))

/-- The countdown before the `n`-th call of `Simulation.update`
(0-indexed; `plan_countdown` is initialised to 0). -/
def countdownBefore : Nat → Int
  | 0 => 0
  | n + 1 => (isPlanningDue (countdownBefore n)).2

/-- Whether the `n`-th call of `Simulation.update` (0-indexed) runs the
planner. -/
def plansAt (n : Nat) : Bool :=
  (isPlanningDue (countdownBefore n)).1

/-! ## Jobs and instructions (src/job.py) -/

/-- The `Status` enum. -/
inductive Status where
  | NOT_PLANNED
  | NOT_STARTED
  | IN_PROGRESS
  | COMPLETED
deriving DecidableEq, Repr

/-- The `InstructionType` enum. -/
inductive InstructionType where
  | DRIVE
  | BOOK_QC
  | BOOK_YARD
  | WORK_QC
  | WORK_YARD
deriving DecidableEq, Repr

/-- `JobInstruction`. -/
structure JobInstruction where
  instructionType : InstructionType
  HT_name : Option String
  QC_name : Option String
  yard_name : Option String
  path : Option (List Coordinate)
  start_time : Option Int
  end_time : Option Int
deriving DecidableEq, Repr

/-- A `JobInstruction` as freshly constructed (timestamps unset). -/
def mkInstruction (t : InstructionType) (HT QC yard : Option String)
    (path : Option (List Coordinate)) : JobInstruction :=
  { instructionType := t
    HT_name := HT
    QC_name := QC
    yard_name := yard
    path := path
    start_time := none
    end_time := none }

/-- `Job`. -/
structure Job where
  job_ID : String
  job_type : String
  container_number : String
  QC_name : String
  QC_job_sequence : String
  yard_name : String
  alt_yard_names : List String
  assigned_yard_name : Option String
  assigned_HT_name : Option String
  yard_status : Status
  QC_status : Status
  HT_status : Status
  job_status : Status
  instructions : List JobInstruction
  instruction_stage : Option Nat
  start_time : Option Int
  end_time : Option Int
deriving DecidableEq, Repr

/-- `Job.is_completed`. -/
def isCompleted (j : Job) : Bool :=
  j.job_status = Status.COMPLETED

/-- `Job.is_HT_required`. -/
def isHTRequired (j : Job) : Bool :=
  j.HT_status ≠ Status.COMPLETED

/-- `Job.set_instructions`: attaches the instruction list, resets the
cursor and flips all statuses to NOT_STARTED. -/
def setInstructions (j : Job) (instrs : List JobInstruction) : Job :=
  { j with
      instructions := instrs
      instruction_stage := some 0
      job_status := Status.NOT_STARTED
      yard_status := Status.NOT_STARTED
      QC_status := Status.NOT_STARTED
      HT_status := Status.NOT_STARTED }

/-- `Job.start_job`. -/
def startJob (j : Job) (timestamp : Int) : Job :=
  { j with job_status := Status.IN_PROGRESS, start_time := some timestamp }

/-- `Job.proceed_to_next_instruction`: stamps the current instruction's
end time, releases the QC/yard completion flag when the completed stage is
a work stage (index 2 or 6), marks the whole job COMPLETED when the
completed stage is the final one (index >= 7), and advances the cursor.
`none` models the crash when there is no current instruction. -/
def proceedToNextInstruction (j : Job) (timestamp : Int) : Option Job :=
  match j.instruction_stage with
  | none => none
  | some stage =>
    match j.instructions.get? stage with
    | none => none
    | some instr =>
      let instr' := { instr with end_time := some timestamp }
      let instructions' := j.instructions.set stage instr'
      let QC_status' :=
        if (stage = 2 ∨ stage = 6) ∧ instr.instructionType = InstructionType.WORK_QC then
          Status.COMPLETED
        else j.QC_status
      let yard_status' :=
        if (stage = 2 ∨ stage = 6) ∧ instr.instructionType = InstructionType.WORK_YARD then
          Status.COMPLETED
        else j.yard_status
      let HT_status' := if 7 ≤ stage then Status.COMPLETED else j.HT_status
      let job_status' := if 7 ≤ stage then Status.COMPLETED else j.job_status
      let end_time' := if 7 ≤ stage then some timestamp else j.end_time
      some { j with
              instructions := instructions'
              QC_status := QC_status'
              yard_status := yard_status'
              HT_status := HT_status'
              job_status := job_status'
              end_time := end_time'
              instruction_stage := some (stage + 1) }

/-! ## Discharge-job instruction synthesis (src/plan/job_planner.py,
`JobPlanner.plan`, DI branch) -/

/-- The eight instructions `JobPlanner.plan` attaches to a discharge (DI)
job, in order.  The four DRIVE paths are produced by the pluggable
`get_path_from_*` routing procedures and are passed in here. -/
def mkDischargeInstructions (HT_name QC_name yard_name : String)
    (pathToQC pathQCToBuffer pathToYard pathYardToBuffer : List Coordinate) :
    List JobInstruction :=
  [ mkInstruction InstructionType.BOOK_QC none none none none,
    mkInstruction InstructionType.DRIVE (some HT_name) none none (some pathToQC),
    mkInstruction InstructionType.WORK_QC (some HT_name) (some QC_name) none none,
    mkInstruction InstructionType.DRIVE (some HT_name) none none (some pathQCToBuffer),
    mkInstruction InstructionType.BOOK_YARD none none none none,
    mkInstruction InstructionType.DRIVE (some HT_name) none none (some pathToYard),
    mkInstruction InstructionType.WORK_YARD (some HT_name) none (some yard_name) none,
    mkInstruction InstructionType.DRIVE (some HT_name) none none (some pathYardToBuffer) ]

/-! ## HT operators and the drive-execution pass (src/operators.py
`HTOperator`, src/operate/engine.py `OperationEngine.operate`) -/

/-- `HTOperator` state: current coordinate, assigned route and cursor. -/
structure HTOperator where
  lockedBy : Option String
  coord : Coordinate
  plannedPath : List Coordinate
  pathStep : Option Nat
deriving DecidableEq, Repr

/-- `HTOperator.has_completed_task`: the unit has reached the route's
final coordinate; `none` models the crash on an empty route. -/
def htHasCompletedTask (op : HTOperator) : Option Bool :=
  op.plannedPath.getLast?.map (fun l => op.coord = l)

/-- `HTOperator.get_planned_coordinate`: the next route coordinate, or
Python `None` (inner `none`) when the route is complete; the outer `none`
models a crash (empty route, missing or out-of-range cursor). -/
def htGetPlannedCoordinate (op : HTOperator) : Option (Option Coordinate) :=
  match htHasCompletedTask op with
  | none => none
  | some true => some none
  | some false =>
    match op.pathStep with
    | none => none
    | some s => (op.plannedPath.get? s).map some

/-- `HTOperator.execute_task`: when working and not yet at the route's
end, step onto the next route coordinate and advance the cursor. -/
def htExecuteTask (op : HTOperator) : Option HTOperator :=
  match op.pathStep with
  | none => some op
  | some s =>
    match htHasCompletedTask op with
    | none => none
    | some true => some op
    | some false =>
      match op.plannedPath.get? s with
      | none => none
      | some c => some { op with coord := c, pathStep := some (s + 1) }

/-- The effect of `HTOperator.release` on the route fields (the lock is
cleared, the route and cursor are reset). -/
def htRelease (op : HTOperator) : HTOperator :=
  { op with lockedBy := none, plannedPath := [], pathStep := none }

/-- Combined state acted on by the engine's drive-execution pass: the
sector-map occupancy and the `HT_resource_group` dictionary. -/
structure DriveState where
  occ : Occ
  ops : String → Option HTOperator

/-- Update of the HT dictionary. -/
def updOps (ops : String → Option HTOperator) (name : String) (op : HTOperator) :
    String → Option HTOperator :=
  fun n => if n = name then some op else ops n

/-- One entry of the drive-execution pass of `OperationEngine.operate`
(the `for HT_name in HT_sorted_names` body): read the unit's current and
planned coordinates, and only if the destination sector has spare
capacity, execute the step, move the occupant on the map, and — via
`mark_instruction_progress_and_release_operator_if_applicable` — release
the unit when its route is complete and the owning job no longer requires
it.  The job-cursor bookkeeping of that helper touches only the `Job`
objects, not this state; the value of `job.is_HT_required()` after the
cursor moves is abstracted as `required`.  When the destination has no
spare capacity nothing happens and the instruction stays pending. -/
def driveStepFor (required : String → Bool) (st : DriveState) (name : String) :
    Option DriveState :=
  match st.ops name with
  | none => none
  | some op =>
    let currentCoord := op.coord
    match htGetPlannedCoordinate op with
    | none => none
    | some none => none
    | some (some plannedCoord) =>
      match sectorTypeAt plannedCoord with
      | none => none
      | some t =>
        if (st.occ plannedCoord).length < sectorCapacity t then
          match htExecuteTask op with
          | none => none
          | some op' =>
            match moveOccupator st.occ currentCoord plannedCoord name with
            | none => none
            | some occ' =>
              match htHasCompletedTask op' with
              | none => none
              | some completed =>
                let op'' :=
                  if completed ∧ ¬ required name then htRelease op' else op'
                some { occ := occ', ops := updOps st.ops name op'' }
        else some st

/-- Lexicographic comparison of character lists by code point — the
order Python uses to compare strings. -/
def strLt : List Char → List Char → Bool
  | [], [] => false
  | [], _ :: _ => true
  | _ :: _, [] => false
  | c :: cs, d :: ds =>
    if c.val < d.val then true
    else if d.val < c.val then false
    else strLt cs ds

/-- Python string comparison `a < b` (code-point lexicographic). -/
def pyStrLt (a b : String) : Bool :=
  strLt a.data b.data

/-- Insertion of a string into an ascending list (for `sorted`). -/
def insertStr (a : String) : List String → List String
  | [] => [a]
  | b :: bs => if pyStrLt a b then a :: b :: bs else b :: insertStr a bs

/-- Python `sorted` on the collected HT names (ascending string order;
the fleet names `HT_01` … `HT_80` are zero-padded, so this is ascending
identifier order). -/
def sortStrings (l : List String) : List String :=
  l.foldr insertStr []

/-- The drive-execution pass: all pending DRIVE moves collected during
the instruction pass are executed in one pass, units in ascending name
order. -/
def drivePass (required : String → Bool) (st : DriveState) (pending : List String) :
    Option DriveState :=
  go (sortStrings pending) st
where
  go : List String → DriveState → Option DriveState
    | [], st => some st
    | name :: rest, st =>
      match driveStepFor required st name with
      | none => none
      | some st' => go rest st'

/-! ## Job-queue cleanup (src/operate/engine.py, `JobQueue` and the
clean-up phase of `OperationEngine.operate`) -/

/-- `JobQueue.pop_by_job_seq`: removes the first job whose sequence
matches; `none` models the `ValueError` when none does. -/
def popByJobSeq (items : List Job) (jobSeq : String) : Option (List Job) :=
  match items with
  | [] => none
  | j :: rest =>
    if j.QC_job_sequence = jobSeq then some rest
    else (popByJobSeq rest jobSeq).map (j :: ·)

/-- The clean-up phase of `OperationEngine.operate`
(`for job in self.job_queue: if job.is_completed(): pop`), with Python's
list-iterator semantics: the iterator keeps a position index into the very
list being mutated, so removing the current element shifts the list and
the element that followed it is skipped. -/
def cleanupLoop (items : List Job) (i : Nat) : Option (List Job) :=
  if h : i < items.length then
    let job := items.get ⟨i, h⟩
    if isCompleted job then
      match h2 : popByJobSeq items job.QC_job_sequence with
      | none => none
      | some items' => cleanupLoop items' (i + 1)
    else cleanupLoop items (i + 1)
  else some items
termination_by items.length - i
decreasing_by
  · have hlen : ∀ (l : List Job) (s : String) (l' : List Job),
        popByJobSeq l s = some l' → l'.length < l.length := by
      intro l s
      induction l with
      | nil => intro l' hp; simp [popByJobSeq] at hp
      | cons a t ih =>
        intro l' hp
        simp only [popByJobSeq] at hp
        split at hp
        · cases hp; simp only [List.length_cons]; omega
        · cases hm : popByJobSeq t s with
          | none => rw [hm] at hp; simp at hp
          | some t' =>
            rw [hm] at hp
            simp at hp
            subst hp
            have := ih t' hm
            simp only [List.length_cons]
            omega
    have := hlen _ _ _ h2
    omega
  · omega

/-- The whole clean-up phase on the engine's job queue. -/
def cleanupQueue (items : List Job) : Option (List Job) :=
  cleanupLoop items 0

/-- The sequence number `QCOperator.join_queue` would accept next: the
successor of the last queued entry, or, when the queue is empty, of the
most recently completed sequence number. -/
def expectedNextSeqNumber (st : QCOperatorState) : Nat :=
  match st.queue.getLast? with
  | some latest => latest.n + 1
  | none => st.expectedMinimumSeqNumber + 1

/-- Invariant tying together the ghost acceptance history, the queue and
the completed-sequence pointer of a `QCOperator`. -/
def QCInv (st : QCOperatorState) : Prop :=
  st.accepted.map JobSeq.n =
      List.range' 1 (st.expectedMinimumSeqNumber + st.queue.length) ∧
  st.queue.map JobSeq.n =
      List.range' (st.expectedMinimumSeqNumber + 1) st.queue.length ∧
  ∀ j, st.lockedBy = some j → st.queue.head? = some j

/-- Concrete occupancy state for claim C10: `HT_01` on the highway-left
sector (3,7), and the highway-left sector (2,7) already filled to its
capacity of 1 by `HT_02`. -/
def occC10 : Occ :=
  fun c => if c = ⟨3, 7⟩ then ["HT_01"] else if c = ⟨2, 7⟩ then ["HT_02"] else []

/-- Occupancy state reached from the empty map by the initial
`add_occupator` of `HT_01` onto its initial buffer sector (2,6). -/
def occC1 : Occ :=
  updOcc emptyOcc ⟨2, 6⟩ (emptyOcc ⟨2, 6⟩ ++ ["HT_01"])


/-- A fully COMPLETED job with the given sequence identifier (concrete
input for claim C9). -/
def jobC9 (seq : String) : Job :=
  { job_ID := seq
    job_type := "DI"
    container_number := "CONT1"
    QC_name := "QC1"
    QC_job_sequence := seq
    yard_name := "A1"
    alt_yard_names := []
    assigned_yard_name := some "A1"
    assigned_HT_name := some "HT_01"
    yard_status := Status.COMPLETED
    QC_status := Status.COMPLETED
    HT_status := Status.COMPLETED
    job_status := Status.COMPLETED
    instructions := []
    instruction_stage := some 8
    start_time := some 0
    end_time := some 100 }

/-- A discharge job at its final instruction stage (concrete input for
claim C5's witness). -/
def jobC5 : Job :=
  { job_ID := "J1"
    job_type := "DI"
    container_number := "CONT1"
    QC_name := "QC1"
    QC_job_sequence := "QC1_0001"
    yard_name := "A1"
    alt_yard_names := []
    assigned_yard_name := some "A1"
    assigned_HT_name := some "HT_01"
    yard_status := Status.COMPLETED
    QC_status := Status.COMPLETED
    HT_status := Status.IN_PROGRESS
    job_status := Status.IN_PROGRESS
    instructions := mkDischargeInstructions "HT_01" "QC1" "A1" [] [] [] []
    instruction_stage := some 7
    start_time := some 0
    end_time := none }

/-- A concrete protocol trace for claim C3's witness: sequence 1 is
admitted, locked, released, then sequence 2 is admitted. -/
def evsC3 : List QCEvent :=
  [QCEvent.join ⟨"QC1", 1⟩, QCEvent.lock ⟨"QC1", 1⟩,
   QCEvent.release ⟨"QC1", 1⟩, QCEvent.join ⟨"QC1", 2⟩]

/-- The operator state after running `evsC3` from a fresh operator. -/
def stC3 : QCOperatorState :=
  { name := "QC1"
    lockedBy := none
    queue := [⟨"QC1", 2⟩]
    handlingTaskProgress := none
    expectedMinimumSeqNumber := 1
    accepted := [⟨"QC1", 1⟩, ⟨"QC1", 2⟩] }


/-- Concrete transport unit for claim C2's witness: `HT_01` on the QC
travel sector (5,5), routed through the contested buffer cell (5,6). -/
def opAC2 : HTOperator :=
  { lockedBy := some "QC1_0001"
    coord := ⟨5, 5⟩
    plannedPath := [⟨5, 6⟩, ⟨5, 7⟩]
    pathStep := some 0 }

/-- Concrete transport unit for claim C2's witness: `HT_02` on the
highway-left sector (5,7), also routed through the buffer cell (5,6). -/
def opBC2 : HTOperator :=
  { lockedBy := some "QC2_0001"
    coord := ⟨5, 7⟩
    plannedPath := [⟨5, 6⟩, ⟨5, 5⟩]
    pathStep := some 0 }

/-- Concrete drive-pass state for claim C2's witness: the contested
buffer cell (5,6) has capacity 2 and already holds `HT_03`. -/
def stC2 : DriveState :=
  { occ := fun c =>
      if c = ⟨5, 5⟩ then ["HT_01"]
      else if c = ⟨5, 7⟩ then ["HT_02"]
      else if c = ⟨5, 6⟩ then ["HT_03"]
      else []
    ops := fun n =>
      if n = "HT_01" then some opAC2
      else if n = "HT_02" then some opBC2
      else none }

/-! # Theorems -/

/-! ## Helper lemmas -/

theorem addOccupator_inv {occ occ' : Occ} {c : Coordinate} {name : String}
    (hinv : OccInv occ) (h : addOccupator occ c name = some occ') : OccInv occ' := by
  unfold addOccupator at h
  cases hty : sectorTypeAt c with
  | none => rw [hty] at h; exact absurd h (by simp)
  | some t =>
    simp only [hty] at h
    by_cases hlen : (occ c).length < sectorCapacity t
    · rw [if_pos hlen] at h
      by_cases hmem : name ∈ occ c
      · rw [if_pos hmem] at h; exact absurd h (by simp)
      · rw [if_neg hmem] at h
        cases h
        intro c'
        unfold updOcc
        by_cases hc : c' = c
        · rw [if_pos hc, hc]
          simp only [List.length_append, List.length_cons, List.length_nil]
          unfold capacityAt
          simp only [hty]
          omega
        · rw [if_neg hc]; exact hinv c'
    · rw [if_neg hlen] at h; exact absurd h (by simp)

theorem moveOccupator_guarded_inv {occ occ' : Occ} {fromC toC : Coordinate}
    {name : String} {t : SectorType}
    (hinv : OccInv occ) (hty : sectorTypeAt toC = some t)
    (hlen : (occ toC).length < sectorCapacity t)
    (h : moveOccupator occ fromC toC name = some occ') : OccInv occ' := by
  unfold moveOccupator at h
  cases htyf : sectorTypeAt fromC with
  | none => rw [htyf, hty] at h; exact absurd h (by simp)
  | some tf =>
    simp only [htyf, hty] at h
    split at h
    case isFalse => exact absurd h (by simp)
    case isTrue hcond =>
      obtain ⟨hmem, hnmem, _⟩ := hcond
      have hft : fromC ≠ toC := by
        intro he; rw [he] at hmem; exact hnmem hmem
      cases h
      intro c'
      unfold updOcc
      by_cases hc : c' = toC
      · rw [if_pos hc, hc]
        rw [if_neg (Ne.symm hft)]
        simp only [List.length_append, List.length_cons, List.length_nil]
        unfold capacityAt
        simp only [hty]
        omega
      · rw [if_neg hc]
        by_cases hcf : c' = fromC
        · rw [if_pos hcf, hcf]
          calc ((occ fromC).erase name).length ≤ (occ fromC).length :=
                (List.erase_sublist _ _).length_le
            _ ≤ capacityAt fromC := hinv fromC
        · rw [if_neg hcf]; exact hinv c'

theorem guardedMove_inv {occ occ' : Occ} {m : Coordinate × Coordinate × String}
    (hinv : OccInv occ) (h : guardedMove occ m = some occ') : OccInv occ' := by
  unfold guardedMove at h
  cases hty : sectorTypeAt m.2.1 with
  | none => rw [hty] at h; exact absurd h (by simp)
  | some t =>
    simp only [hty] at h
    by_cases hlen : (occ m.2.1).length < sectorCapacity t
    · rw [if_pos hlen] at h
      exact moveOccupator_guarded_inv hinv hty hlen h
    · rw [if_neg hlen] at h
      cases h
      exact hinv

theorem tickMoves_inv {occ occ' : Occ} {ms : List (Coordinate × Coordinate × String)}
    (hinv : OccInv occ) (h : tickMoves occ ms = some occ') : OccInv occ' := by
  induction ms generalizing occ with
  | nil => unfold tickMoves at h; cases h; exact hinv
  | cons m ms ih =>
    unfold tickMoves at h
    cases hg : guardedMove occ m with
    | none => rw [hg] at h; exact absurd h (by simp)
    | some occ1 =>
      rw [hg] at h
      exact ih (guardedMove_inv hinv hg) h

/-! ## Claim theorems -/

/-- C1: every occupancy state the simulation can reach — starting from the
initial placement of the transport units onto their buffer sectors and
advancing by whole ticks of `OperationEngine.operate` — satisfies
`occupants.len() <= capacity` in every sector. -/
theorem sector_capacity_invariant (occ : Occ) (h : ReachableOcc occ) : OccInv occ := by
  induction h with
  | empty => intro c; simp [emptyOcc]
  | add _ hadd ih => exact addOccupator_inv ih hadd
  | tick _ htick ih => exact tickMoves_inv ih htick

/-- Witness for C1: the state after adding `HT_01` to its initial buffer
sector is reachable, and that sector respects its capacity. -/
theorem sector_capacity_invariant_witness :
    (occC1 ⟨2, 6⟩).length ≤ capacityAt ⟨2, 6⟩ :=
  sector_capacity_invariant occC1
    (@ReachableOcc.add emptyOcc occC1 ⟨2, 6⟩ "HT_01" ReachableOcc.empty rfl) ⟨2, 6⟩

/-- C10: `SectorMap.move_occupator` checks only that the mover occupies
the source, is absent from the destination, and that the destination is a
precomputed legal neighbour of the source; it never checks destination
capacity.  On a state where the legal neighbour (2,7) is already filled to
its capacity of 1, the move succeeds without raising and leaves the
destination with 2 occupants, exceeding its capacity. -/
theorem moveOccupator_can_exceed_capacity :
    (occC10 ⟨2, 7⟩).length = capacityAt ⟨2, 7⟩ ∧
    capacityAt ⟨2, 7⟩ = 1 ∧
    (⟨2, 7⟩ : Coordinate) ∈ movableTo ⟨3, 7⟩ ∧
    (moveOccupator occC10 ⟨3, 7⟩ ⟨2, 7⟩ "HT_01").isSome = true ∧
    (moveOccupator occC10 ⟨3, 7⟩ ⟨2, 7⟩ "HT_01").map (fun o => (o ⟨2, 7⟩).length) =
      some 2 := by
  refine ⟨by decide, by decide, by decide, by decide, by decide⟩

/-- C6: a yard operator that has just received a task (progress 0)
reports `has_completed_task()` after `n` calls of `execute_task` exactly
when `n ≥ 30` — false after 29 calls, true after 30 — given the required
yard work duration of 300 time-units and the tick size of 10. -/
theorem yard_completes_after_thirty_ticks (st : YardOperatorState) (n : Nat) :
    yardHasCompletedTask (yardExecuteTask^[n] (yardReceiveTask st)) =
      some (decide (30 ≤ n)) := by
  have hiter : ∀ m : Nat,
      yardExecuteTask^[m] (yardReceiveTask st) =
        { name := st.name, handlingTaskProgress := some (SYSTEM_TIME_PASSED * min m 30) } := by
    intro m
    induction m with
    | zero => simp [yardReceiveTask]
    | succ m ih =>
      rw [Function.iterate_succ_apply', ih]
      unfold yardExecuteTask YARD_WORK_TIME_REQUIRED SYSTEM_TIME_PASSED
      simp only
      by_cases h : 30 ≤ m
      · have h1 : min m 30 = 30 := by omega
        have h2 : min (m + 1) 30 = 30 := by omega
        rw [h1, h2]
        norm_num
      · have h1 : min m 30 = m := by omega
        have h2 : min (m + 1) 30 = m + 1 := by omega
        rw [h1, h2]
        rw [if_neg (by omega)]
        have h4 : 10 * m + 10 = 10 * (m + 1) := by ring
        rw [h4]
  rw [hiter n]
  unfold yardHasCompletedTask
  simp only [Option.map_some']
  congr 1
  rw [decide_eq_decide]
  unfold YARD_WORK_TIME_REQUIRED SYSTEM_TIME_PASSED
  omega

/-- C7: for the deadlock monitor with idle counter 0 and previous snapshot
`c`, the `m+1`-st consecutive `is_deadlock` check observing the unchanged
snapshot `c` returns false for the first 359 checks, true on the 360th,
and true on every later one (the counter grows by the 10-unit tick size
toward the 3,600-unit threshold); and any check observing a changed
snapshot resets the idle counter to zero and returns false. -/
theorem deadlock_after_360_idle_checks :
    (∀ (c : List (Option Coordinate)) (m : Nat),
      (isDeadlock (deadlockStateAfter ⟨c, 0⟩ c m) c).1 = decide (360 ≤ m + 1))
    ∧ (∀ (st : HTCoordView) (c' : List (Option Coordinate)),
        c' ≠ st.previousHTCoords →
        isDeadlock st c' = (false, ⟨c', 0⟩)) := by
  constructor
  · intro c m
    have hstate : ∀ k : Nat,
        deadlockStateAfter ⟨c, 0⟩ c k = ⟨c, SYSTEM_TIME_PASSED * k⟩ := by
      intro k
      induction k with
      | zero => simp [deadlockStateAfter]
      | succ k ih =>
        unfold deadlockStateAfter
        rw [ih]
        unfold isDeadlock
        rw [if_pos rfl, Nat.mul_succ]
    rw [hstate m]
    unfold isDeadlock
    rw [if_pos rfl]
    simp only
    rw [decide_eq_decide]
    unfold DEADLOCK_THRESHOLD SYSTEM_TIME_PASSED
    omega
  · intro st c' h
    unfold isDeadlock
    rw [if_neg h]

/-- Witness for C7: a check that observes movement resets the counter and
reports no deadlock. -/
theorem deadlock_after_360_idle_checks_witness :
    isDeadlock ⟨[some ⟨2, 6⟩], 3000⟩ [some ⟨3, 6⟩] = (false, ⟨[some ⟨3, 6⟩], 0⟩) :=
  deadlock_after_360_idle_checks.2 ⟨[some ⟨2, 6⟩], 3000⟩ [some ⟨3, 6⟩] (by decide)

/-- C8 counterexample: the claim that successive planner invocations are
60 time-units (6 ticks) apart is false.  `Simulation.update` number 0
plans, but update number 6 — which occurs 60 time-units of simulated time
later, the tick loop advancing the clock by 10 per update — does not; the
next planning update is number 7. -/
theorem planning_not_every_six_ticks :
    plansAt 0 = true ∧ plansAt 6 = false ∧ plansAt 7 = true := by
  refine ⟨by decide, by decide, by decide⟩

/-- C8 (amended): the planner is invoked on `Simulation.update` number `n`
(0-indexed) exactly when `n` is a multiple of 7, i.e. successive planning
invocations are 7 ticks = 70 time-units of simulated time apart: the
planning tick resets the countdown to the 60-unit interval and does not
decrement it, and the countdown only reaches 0 after the six following
ticks have each subtracted the 10-unit tick size. -/
theorem planning_every_seven_ticks (n : Nat) :
    plansAt n = decide (n % 7 = 0) := by
  have hperiod : ∀ m : Nat, countdownBefore (m + 7) = countdownBefore m := by
    intro m
    induction m with
    | zero => decide
    | succ m ih =>
      show (isPlanningDue (countdownBefore (m + 7))).2 = _
      rw [ih]
      rfl
  have hplans : ∀ m : Nat, plansAt (m + 7) = plansAt m := by
    intro m
    unfold plansAt
    rw [hperiod]
  have haux : ∀ (q r : Nat), plansAt (7 * q + r) = plansAt r := by
    intro q
    induction q with
    | zero => intro r; norm_num
    | succ q ih =>
      intro r
      have he : 7 * (q + 1) + r = (7 * q + r) + 7 := by ring
      rw [he, hplans, ih]
  have hd := Nat.div_add_mod n 7
  have hmod : plansAt n = plansAt (n % 7) := by
    conv_lhs => rw [← hd]
    exact haux (n / 7) (n % 7)
  rw [hmod]
  have hlt : n % 7 < 7 := Nat.mod_lt _ (by norm_num)
  interval_cases h : n % 7 <;> decide

/-- C4 counterexample: calling `QCOperator.join_queue` with a sequence
number that is not the expected successor does not raise — the method has
no raise path (it is embedded as a total function) — and leaves the
operator state completely unchanged: on a fresh operator (last completed
sequence 0, empty queue), joining sequence number 2 is silently ignored. -/
theorem joinQueue_out_of_sequence_does_not_raise :
    joinQueue (initQCOperator "QC1") ⟨"QC1", 2⟩ = initQCOperator "QC1" := by
  decide

/-- C4 (amended): admitting a crane-queue entry out of sequence — a
sequence number that is not the successor of the last queued (or, when
the queue is empty, the last completed) sequence number — is silently
ignored: `join_queue` appends nothing, raises nothing, and returns with
the operator state unchanged; it is not a fatal contract violation. -/
theorem joinQueue_out_of_sequence_ignored (st : QCOperatorState) (j : JobSeq)
    (h : j.n ≠ expectedNextSeqNumber st) :
    joinQueue st j = st := by
  unfold expectedNextSeqNumber at h
  unfold joinQueue
  by_cases hq : st.queue = []
  · rw [if_pos hq]
    rw [hq] at h
    simp only [List.getLast?_nil] at h
    rw [if_neg (fun heq => h heq.symm)]
  · rw [if_neg hq]
    by_cases hin : j ∈ st.queue
    · rw [if_pos hin]
    · rw [if_neg hin]
      have hlast : st.queue.getLast? = some (st.queue.getLast hq) :=
        List.getLast?_eq_getLast _ hq
      rw [hlast] at h
      simp only at h
      simp only [hlast]
      rw [if_neg (fun heq => h (by rw [heq]))]

/-- Witness for C4 (amended): joining sequence number 5 on a fresh
operator expecting 1 is a no-op. -/
theorem joinQueue_out_of_sequence_ignored_witness :
    joinQueue (initQCOperator "QC2") ⟨"QC2", 5⟩ = initQCOperator "QC2" :=
  joinQueue_out_of_sequence_ignored (initQCOperator "QC2") ⟨"QC2", 5⟩ (by decide)

/-- C9 (code bug): the clean-up phase of `OperationEngine.operate` removes
COMPLETED jobs while iterating over the very list it mutates, so the job
immediately following a removed one is skipped.  With two adjacent
COMPLETED jobs in the queue, the second remains in the queue at the end of
the tick, contradicting the spec's "Remove COMPLETED jobs from the active
working set". -/
theorem completed_job_survives_cleanup :
    cleanupQueue [jobC9 "QC1_0001", jobC9 "QC2_0001"] = some [jobC9 "QC2_0001"] ∧
    isCompleted (jobC9 "QC2_0001") = true := by
  constructor
  · unfold cleanupQueue
    rw [cleanupLoop.eq_def]
    norm_num [jobC9, isCompleted, popByJobSeq]
    split
    next h2 => exact absurd h2 (by decide)
    next items' h2 =>
      have h3 : some items' = some [jobC9 "QC2_0001"] := by
        rw [← h2]
        decide
      obtain rfl := Option.some.inj h3
      rw [cleanupLoop.eq_def]
      norm_num [jobC9]
  · decide

/-- C5: a planned discharge job carries exactly the eight instructions
BOOK_QC, DRIVE, WORK_QC, DRIVE, BOOK_YARD, DRIVE, WORK_YARD, DRIVE in this
order, and completing the instruction at index 7 via
`proceed_to_next_instruction` makes `is_completed()` true, sets the
transport-unit status flag to COMPLETED, and records an end time no
earlier than the recorded start time (the engine clock never decreases
between the start and the completion of a job). -/
theorem discharge_job_instructions_and_completion :
    (∀ (HT QC yard : String) (p1 p2 p3 p4 : List Coordinate),
      (mkDischargeInstructions HT QC yard p1 p2 p3 p4).map JobInstruction.instructionType =
        [InstructionType.BOOK_QC, InstructionType.DRIVE, InstructionType.WORK_QC,
         InstructionType.DRIVE, InstructionType.BOOK_YARD, InstructionType.DRIVE,
         InstructionType.WORK_YARD, InstructionType.DRIVE])
    ∧ (∀ (j : Job) (s e : Int) (instr : JobInstruction),
        j.instruction_stage = some 7 →
        j.instructions.get? 7 = some instr →
        j.start_time = some s → s ≤ e →
        ∃ j', proceedToNextInstruction j e = some j' ∧
          isCompleted j' = true ∧
          j'.HT_status = Status.COMPLETED ∧
          j'.start_time = some s ∧ j'.end_time = some e ∧ s ≤ e) := by
  constructor
  · intro HT QC yard p1 p2 p3 p4
    rfl
  · intro j s e instr h7 hget hstart hse
    unfold proceedToNextInstruction
    simp only [h7, hget]
    refine ⟨_, rfl, ?_, ?_, ?_, ?_, hse⟩
    · simp [isCompleted]
    · simp
    · exact hstart
    · simp

/-- Witness for C5: completing the final instruction of a concrete
discharge job started at time 0 with timestamp 100. -/
theorem discharge_job_instructions_and_completion_witness :
    ∃ j', proceedToNextInstruction jobC5 100 = some j' ∧
      isCompleted j' = true ∧
      j'.HT_status = Status.COMPLETED ∧
      j'.start_time = some 0 ∧ j'.end_time = some 100 ∧ (0 : Int) ≤ 100 :=
  discharge_job_instructions_and_completion.2 jobC5 0 100
    (mkInstruction InstructionType.DRIVE (some "HT_01") none none (some []))
    rfl rfl rfl (by norm_num)

/-- Appending the next element to an arithmetic range. -/
theorem range'_snoc (s n : Nat) :
    List.range' s n ++ [s + n] = List.range' s (n + 1) := by
  rw [List.range'_concat]
  simp

theorem joinQueue_inv {st : QCOperatorState} {j : JobSeq} (hinv : QCInv st) :
    QCInv (joinQueue st j) := by
  obtain ⟨h1, h2, h3⟩ := hinv
  unfold joinQueue
  by_cases hq : st.queue = []
  · rw [if_pos hq]
    by_cases hn : st.expectedMinimumSeqNumber + 1 = j.n
    · rw [if_pos hn]
      rw [hq] at h1
      simp only [List.length_nil, Nat.add_zero] at h1
      refine ⟨?_, ?_, ?_⟩
      · simp only [List.map_append, List.map_cons, List.map_nil,
          List.length_cons, List.length_nil]
        rw [h1]
        have hj : j.n = 1 + st.expectedMinimumSeqNumber := by omega
        rw [hj, range'_snoc]
      · simp only [List.map_cons, List.map_nil, List.length_cons,
          List.length_nil, Nat.zero_add, List.range'_one]
        rw [← hn]
      · intro jx hx
        have h4 := h3 jx hx
        rw [hq] at h4
        exact absurd h4 (by simp)
    · rw [if_neg hn]
      exact ⟨h1, h2, h3⟩
  · rw [if_neg hq]
    by_cases hin : j ∈ st.queue
    · rw [if_pos hin]
      exact ⟨h1, h2, h3⟩
    · rw [if_neg hin]
      have hlast : st.queue.getLast? = some (st.queue.getLast hq) :=
        List.getLast?_eq_getLast _ hq
      simp only [hlast]
      by_cases heq : j = ⟨(st.queue.getLast hq).qc, (st.queue.getLast hq).n + 1⟩
      · rw [if_pos heq]
        have hlen : st.queue.length ≠ 0 := by
          simpa [List.length_eq_zero] using hq
        obtain ⟨len', hlen'⟩ : ∃ m, st.queue.length = m + 1 :=
          ⟨st.queue.length - 1, by omega⟩
        have hlastn : (st.queue.getLast hq).n =
            st.expectedMinimumSeqNumber + 1 + len' := by
          have hm : (st.queue.map JobSeq.n).getLast? =
              st.queue.getLast?.map JobSeq.n := List.getLast?_map _ _
          rw [hlast, h2, hlen', List.range'_concat, List.getLast?_concat] at hm
          simp only [Option.map_some'] at hm
          have := Option.some.inj hm
          omega
        have hjn : j.n = st.expectedMinimumSeqNumber + 1 + len' + 1 := by
          rw [heq]
          simp [hlastn]
        refine ⟨?_, ?_, ?_⟩
        · simp only [List.map_append, List.map_cons, List.map_nil,
            List.length_append, List.length_cons, List.length_nil, Nat.zero_add]
          rw [h1, hlen']
          have hj2 : j.n = 1 + (st.expectedMinimumSeqNumber + (len' + 1)) := by
            omega
          rw [hj2, range'_snoc]
          have harg : st.expectedMinimumSeqNumber + (len' + 1 + 1) =
              st.expectedMinimumSeqNumber + (len' + 1) + 1 := by omega
          rw [harg]
        · simp only [List.map_append, List.map_cons, List.map_nil,
            List.length_append, List.length_cons, List.length_nil, Nat.zero_add]
          rw [h2, hlen']
          have hj2 : j.n = (st.expectedMinimumSeqNumber + 1) + (len' + 1) := by
            omega
          rw [hj2, range'_snoc]
        · intro jx hx
          have h4 := h3 jx hx
          cases hqq : st.queue with
          | nil => exact absurd hqq hq
          | cons q rest =>
            rw [hqq] at h4
            simp only [hqq, List.cons_append, List.head?_cons]
            simpa using h4
      · rw [if_neg heq]
        exact ⟨h1, h2, h3⟩

theorem lockQC_inv {st st' : QCOperatorState} {j : JobSeq}
    (hinv : QCInv st) (h : lockQC st j = some st') : QCInv st' := by
  obtain ⟨h1, h2, h3⟩ := hinv
  unfold lockQC at h
  cases hl : st.lockedBy with
  | some x => simp only [hl] at h; exact absurd h (by simp)
  | none =>
    cases hqq : st.queue with
    | nil => simp only [hl, hqq] at h; exact absurd h (by simp)
    | cons q rest =>
      simp only [hl, hqq] at h
      by_cases he : q = j
      · rw [if_pos he] at h
        injection h with h4
        subst h4
        refine ⟨?_, ?_, ?_⟩
        · rw [← hqq]; exact h1
        · rw [← hqq]; exact h2
        · intro jx hx
          have hjx : j = jx := by simpa using hx
          simp only [List.head?_cons]
          rw [← hjx, ← he]
      · rw [if_neg he] at h
        exact absurd h (by simp)

theorem releaseQC_inv {st st' : QCOperatorState} {j : JobSeq}
    (hinv : QCInv st) (h : releaseQC st j = some st') : QCInv st' := by
  obtain ⟨h1, h2, h3⟩ := hinv
  unfold releaseQC at h
  by_cases hl : st.lockedBy = some j
  · rw [if_pos hl] at h
    cases hqq : st.queue with
    | nil => simp only [hqq] at h; exact absurd h (by simp)
    | cons q rest =>
      simp only [hqq] at h
      injection h with h4
      subst h4
      have hhead := h3 j hl
      rw [hqq] at hhead
      have hqj : q = j := by simpa using hhead
      rw [hqq] at h2
      simp only [List.map_cons, List.length_cons] at h2
      rw [List.range'_succ _ _ 1] at h2
      simp only [List.cons.injEq] at h2
      obtain ⟨hqn, hrest⟩ := h2
      refine ⟨?_, ?_, ?_⟩
      · dsimp only
        rw [hqq] at h1
        simp only [List.length_cons] at h1
        rw [h1]
        congr 1
        rw [← hqj]
        omega
      · dsimp only
        rw [hrest, ← hqj, hqn]
      · intro jx hx
        exact absurd hx (by simp)
  · rw [if_neg hl] at h
    exact absurd h (by simp)

theorem qcStep_inv {st st' : QCOperatorState} {e : QCEvent}
    (hinv : QCInv st) (h : qcStep st e = some st') : QCInv st' := by
  cases e with
  | join j =>
    have : st' = joinQueue st j := by
      simpa [qcStep] using h.symm
    rw [this]
    exact joinQueue_inv hinv
  | lock j => exact lockQC_inv hinv h
  | release j => exact releaseQC_inv hinv h

theorem qcRun_inv {st st' : QCOperatorState} {evs : List QCEvent}
    (hinv : QCInv st) (h : qcRun st evs = some st') : QCInv st' := by
  induction evs generalizing st with
  | nil => unfold qcRun at h; cases h; exact hinv
  | cons e es ih =>
    unfold qcRun at h
    cases hs : qcStep st e with
    | none => rw [hs] at h; exact absurd h (by simp)
    | some st1 =>
      rw [hs] at h
      exact ih (qcStep_inv hinv hs) h

/-- C3: over any sequence of `join_queue`, `lock`, `release` calls that
completes without raising (which subsumes the engine's protocol of
locking only at the queue head and releasing only by the holder), the
sequence numbers ever accepted into a crane operator's queue are exactly
1, 2, …, k in order: strictly increasing, starting at 1, with no gaps. -/
theorem qc_accepted_numbers_sequential (name : String) (evs : List QCEvent)
    (st : QCOperatorState) (h : qcRun (initQCOperator name) evs = some st) :
    st.accepted.map JobSeq.n = List.range' 1 st.accepted.length := by
  have hinit : QCInv (initQCOperator name) := by
    refine ⟨rfl, rfl, ?_⟩
    intro jx hx
    exact absurd hx (by simp [initQCOperator])
  have hinv := qcRun_inv hinit h
  obtain ⟨h1, _, _⟩ := hinv
  have hlen : st.accepted.length =
      st.expectedMinimumSeqNumber + st.queue.length := by
    have := congrArg List.length h1
    simpa using this
  rw [h1, hlen]

/-- Witness for C3: the trace join 1, lock 1, release 1, join 2 yields
accepted numbers [1, 2]. -/
theorem qc_accepted_numbers_sequential_witness :
    stC3.accepted.map JobSeq.n = List.range' 1 stC3.accepted.length :=
  qc_accepted_numbers_sequential "QC1" evsC3 stC3 (by decide)

theorem strLt_irrefl (x : List Char) : strLt x x = false := by
  induction x with
  | nil => rfl
  | cons c cs ih =>
    unfold strLt
    have hi : ¬ c.val < c.val := by
      intro h
      have h2 : c.val.toNat < c.val.toNat := h
      omega
    rw [if_neg hi, if_neg hi]
    exact ih

theorem strLt_asymm (x y : List Char) (h : strLt x y = true) :
    strLt y x = false := by
  induction x generalizing y with
  | nil =>
    cases y with
    | nil => rfl
    | cons d ds => rfl
  | cons c cs ih =>
    cases y with
    | nil => simp [strLt] at h
    | cons d ds =>
      unfold strLt at h ⊢
      by_cases h1 : c.val < d.val
      · have h1' : ¬ d.val < c.val := by
          intro h2
          have ha : c.val.toNat < d.val.toNat := h1
          have hb : d.val.toNat < c.val.toNat := h2
          omega
        rw [if_neg h1', if_pos h1]
      · rw [if_neg h1] at h
        by_cases h2 : d.val < c.val
        · rw [if_pos h2] at h
          exact absurd h (by simp)
        · rw [if_neg h2] at h
          rw [if_neg h2, if_neg h1]
          exact ih ds h

theorem updOcc_same (f : Occ) (c : Coordinate) (l : List String) :
    updOcc f c l c = l := by
  unfold updOcc
  rw [if_pos rfl]

theorem updOcc_other (f : Occ) (c c' : Coordinate) (l : List String)
    (h : ¬ c' = c) : updOcc f c l c' = f c' := by
  unfold updOcc
  rw [if_neg h]

/-- C2: in the engine's drive-execution pass, pending DRIVE moves are
executed in one pass in ascending transport-unit name order (the fleet
names are zero-padded, so this is ascending identifier order); each move
executes only if its destination currently has spare capacity, otherwise
the unit is skipped without error and its DRIVE instruction stays pending.
In particular, when units `a < b` both head for the same destination cell
with exactly one spare slot, exactly `a` moves: afterwards `a` occupies
the destination, `b`'s operator state is untouched, and `b`'s planned
coordinate is still the contested cell, to be retried next tick. -/
theorem drive_pass_lower_identifier_wins
    (required : String → Bool) (st : DriveState) (pending : List String)
    (a b : String) (opA opB : HTOperator) (sA sB : Nat) (d lA lB : Coordinate)
    (td tfA : SectorType)
    (hab : pyStrLt a b = true)
    (hPending : pending = [a, b] ∨ pending = [b, a])
    (hOpsA : st.ops a = some opA) (hOpsB : st.ops b = some opB)
    (hStepA : opA.pathStep = some sA) (hGetA : opA.plannedPath.get? sA = some d)
    (hLastA : opA.plannedPath.getLast? = some lA) (hNotDoneA : opA.coord ≠ lA)
    (hNewA : d ≠ lA)
    (hStepB : opB.pathStep = some sB) (hGetB : opB.plannedPath.get? sB = some d)
    (hLastB : opB.plannedPath.getLast? = some lB) (hNotDoneB : opB.coord ≠ lB)
    (hTyd : sectorTypeAt d = some td)
    (hCap : (st.occ d).length + 1 = sectorCapacity td)
    (hTyA : sectorTypeAt opA.coord = some tfA)
    (hMemA : a ∈ st.occ opA.coord) (hNotMemA : a ∉ st.occ d)
    (hMovA : d ∈ movableTo opA.coord) :
    ∃ st', drivePass required st pending = some st' ∧
      st'.ops a = some { opA with coord := d, pathStep := some (sA + 1) } ∧
      st'.ops b = some opB ∧
      st'.occ d = st.occ d ++ [a] ∧
      htGetPlannedCoordinate opB = some (some d) := by
  have hba : pyStrLt b a = false := strLt_asymm a.data b.data hab
  have hbaP : ¬ (pyStrLt b a = true) := by
    rw [hba]
    simp
  have hbna : b ≠ a := by
    intro he
    rw [he] at hab
    have h2 : strLt a.data a.data = true := hab
    rw [strLt_irrefl] at h2
    exact absurd h2 (by simp)
  have hsort : sortStrings pending = [a, b] := by
    rcases hPending with h | h <;> subst h
    · show insertStr a (insertStr b []) = [a, b]
      show insertStr a [b] = [a, b]
      unfold insertStr
      rw [if_pos hab]
    · show insertStr b (insertStr a []) = [a, b]
      show insertStr b [a] = [a, b]
      unfold insertStr
      rw [if_neg hbaP]
      rfl
  have hfromne : opA.coord ≠ d := by
    intro he
    rw [he] at hMemA
    exact hNotMemA hMemA
  have hplanA : htGetPlannedCoordinate opA = some (some d) := by
    unfold htGetPlannedCoordinate htHasCompletedTask
    simp only [hLastA, Option.map_some', decide_eq_false hNotDoneA, hStepA, hGetA]
  have hplanB : htGetPlannedCoordinate opB = some (some d) := by
    unfold htGetPlannedCoordinate htHasCompletedTask
    simp only [hLastB, Option.map_some', decide_eq_false hNotDoneB, hStepB, hGetB]
  have hexecA : htExecuteTask opA =
      some { opA with coord := d, pathStep := some (sA + 1) } := by
    unfold htExecuteTask htHasCompletedTask
    simp only [hStepA, hLastA, Option.map_some', decide_eq_false hNotDoneA, hGetA]
  have hocc1d :
      updOcc st.occ opA.coord ((st.occ opA.coord).erase a) d = st.occ d :=
    updOcc_other _ _ _ _ (fun hh => hfromne hh.symm)
  have hmove : moveOccupator st.occ opA.coord d a =
      some (updOcc (updOcc st.occ opA.coord ((st.occ opA.coord).erase a)) d
        (updOcc st.occ opA.coord ((st.occ opA.coord).erase a) d ++ [a])) := by
    unfold moveOccupator
    simp only [hTyA, hTyd]
    rw [if_pos ⟨hMemA, hNotMemA, hMovA⟩]
  have hstep_a : driveStepFor required st a =
      some { occ := updOcc (updOcc st.occ opA.coord ((st.occ opA.coord).erase a)) d
               (updOcc st.occ opA.coord ((st.occ opA.coord).erase a) d ++ [a]),
             ops := updOps st.ops a { opA with coord := d, pathStep := some (sA + 1) } } := by
    unfold driveStepFor
    rw [hOpsA]
    simp only [hplanA, hTyd]
    rw [if_pos (by omega : (st.occ d).length < sectorCapacity td)]
    simp only [hexecA, hmove]
    unfold htHasCompletedTask
    simp only [hLastA, Option.map_some', decide_eq_false hNewA,
      Bool.false_eq_true, false_and, if_false]
  have hops1a : updOps st.ops a { opA with coord := d, pathStep := some (sA + 1) } a =
      some { opA with coord := d, pathStep := some (sA + 1) } := by
    unfold updOps
    rw [if_pos rfl]
  have hops1b : updOps st.ops a { opA with coord := d, pathStep := some (sA + 1) } b =
      some opB := by
    unfold updOps
    rw [if_neg hbna]
    exact hOpsB
  have hocc2d : updOcc (updOcc st.occ opA.coord ((st.occ opA.coord).erase a)) d
      (updOcc st.occ opA.coord ((st.occ opA.coord).erase a) d ++ [a]) d =
      st.occ d ++ [a] := by
    rw [updOcc_same, hocc1d]
  have hstep_b : driveStepFor required
      { occ := updOcc (updOcc st.occ opA.coord ((st.occ opA.coord).erase a)) d
          (updOcc st.occ opA.coord ((st.occ opA.coord).erase a) d ++ [a]),
        ops := updOps st.ops a { opA with coord := d, pathStep := some (sA + 1) } } b =
      some { occ := updOcc (updOcc st.occ opA.coord ((st.occ opA.coord).erase a)) d
               (updOcc st.occ opA.coord ((st.occ opA.coord).erase a) d ++ [a]),
             ops := updOps st.ops a { opA with coord := d, pathStep := some (sA + 1) } } := by
    unfold driveStepFor
    dsimp only
    rw [hops1b]
    simp only [hplanB, hTyd]
    rw [if_neg ?_]
    rw [hocc2d]
    simp only [List.length_append, List.length_cons, List.length_nil]
    omega
  refine ⟨{ occ := updOcc (updOcc st.occ opA.coord ((st.occ opA.coord).erase a)) d
              (updOcc st.occ opA.coord ((st.occ opA.coord).erase a) d ++ [a]),
            ops := updOps st.ops a { opA with coord := d, pathStep := some (sA + 1) } },
          ?_, ?_, ?_, ?_, hplanB⟩
  · unfold drivePass
    rw [hsort]
    unfold drivePass.go
    rw [hstep_a]
    unfold drivePass.go
    rw [hstep_b]
    unfold drivePass.go
    rfl
  · dsimp only
    exact hops1a
  · dsimp only
    exact hops1b
  · dsimp only
    exact hocc2d

/-- Witness for C2: `HT_01` and `HT_02` both head for buffer cell (5,6)
which has one spare slot; exactly `HT_01` moves. -/
theorem drive_pass_lower_identifier_wins_witness :
    ∃ st', drivePass (fun _ => true) stC2 ["HT_01", "HT_02"] = some st' ∧
      st'.ops "HT_01" = some { opAC2 with coord := ⟨5, 6⟩, pathStep := some (0 + 1) } ∧
      st'.ops "HT_02" = some opBC2 ∧
      st'.occ ⟨5, 6⟩ = stC2.occ ⟨5, 6⟩ ++ ["HT_01"] ∧
      htGetPlannedCoordinate opBC2 = some (some ⟨5, 6⟩) :=
  drive_pass_lower_identifier_wins (fun _ => true) stC2 ["HT_01", "HT_02"]
    "HT_01" "HT_02" opAC2 opBC2 0 0 ⟨5, 6⟩ ⟨5, 7⟩ ⟨5, 5⟩
    SectorType.BUFFER SectorType.QC_TRAVEL
    (by decide) (Or.inl rfl) (by decide) (by decide)
    rfl rfl rfl (by decide) (by decide)
    rfl rfl rfl (by decide)
    (by decide) (by decide) (by decide)
    (by decide) (by decide) (by decide)

end PSA
